import Mathlib

/-!
Verification of `haystack/document_stores/filter_utils.py`: the filter-expression
translation pipeline (parse → IR → Elasticsearch/Weaviate emission).

The embedding mirrors the Python source:
* `PyObj` models the Python values that flow through the pipeline
  (strings, ints, floats, booleans, lists, dicts); dicts are ordered
  association lists, matching Python's insertion-ordered dicts.
* `IRNode` models the class hierarchy `LogicalFilterClause` /
  `ComparisonOperation` as a tagged tree: `AndOperation` / `OrOperation` /
  `NotOperation` become `logical` nodes, the eight comparison classes become
  `comparison` nodes holding their `field_name` and `comparison_value`.
* Fallible Python code (raising `AssertionError`, `ValueError`, `TypeError`,
  `AttributeError`, `IndexError`) is embedded in `Except PyError`.
* The external date normalizer
  `weaviate.WeaviateDocumentStore._convert_date_to_rfc3339` is not part of
  `filter_utils.py`; per the spec it is a pure collaborator
  `normalizeDate : String → Option String` and is passed as a parameter `nd`.
-/

/-- A Python value as it occurs in filter expressions: scalar, list or dict.
The `float` payload is an opaque identifier for a floating point literal;
the pipeline only carries float values through, it never computes with them.
Dicts are insertion-ordered key/value lists (Python dicts cannot repeat keys;
inputs built from Python never do). -/
inductive PyObj where
  | str (s : String)
  | int (n : Int)
  | float (q : Int)
  | bool (b : Bool)
  | list (items : List PyObj)
  | dict (entries : List (String × PyObj))

/-- The Python exceptions the pipeline can raise. -/
inductive PyError where
  | assertionError
  | valueError
  | typeError
  | attributeError
  | indexError
  deriving DecidableEq

/-- The Python classes `isinstance` is called against in the source. -/
inductive PyTy where
  | strTy | intTy | floatTy | boolTy | listTy

/-- Python `isinstance`.  In Python, `bool` is a subclass of `int`, so
`isinstance(True, int)` is `True`; this is why `pyIsInst (.bool b) .intTy`
holds.  `int` is not a subclass of `float` and vice versa. -/
def pyIsInst : PyObj → PyTy → Bool
  | .str _, .strTy => true
  | .int _, .intTy => true
  | .bool _, .intTy => true
  | .bool _, .boolTy => true
  | .float _, .floatTy => true
  | .list _, .listTy => true
  | _, _ => false

/-- The comparison operator of a `ComparisonOperation` subclass:
`EqOperation`, `NeOperation`, `InOperation`, `NinOperation`, `GtOperation`,
`GteOperation`, `LtOperation`, `LteOperation`. -/
inductive CmpOp where
  | eq | ne | inOp | nin | gt | gte | lt | lte
  deriving DecidableEq

/-- The logical combinator of a `LogicalFilterClause` subclass:
`AndOperation`, `OrOperation`, `NotOperation`. -/
inductive LogKind where
  | andOp | orOp | notOp
  deriving DecidableEq

/-- The IR tree built by `LogicalFilterClause.parse`: a `LogicalFilterClause`
with its `conditions` list, or a `ComparisonOperation` with its `field_name`
and `comparison_value`. -/
inductive IRNode where
  | logical (k : LogKind) (children : List IRNode)
  | comparison (op : CmpOp) (field : String) (value : PyObj)

/-- `ComparisonOperation.__init__` (lines 165-167): it only stores
`field_name` and `comparison_value`; it performs no validation and cannot
raise. -/
def comparisonInit (op : CmpOp) (field : String) (value : PyObj) :
    Except PyError IRNode :=
  .ok (.comparison op field value)

/-- `ComparisonOperation.parse` (lines 170-199).  A dict clause yields one
comparison per recognised operator key, in dict order, silently skipping
unrecognised keys; a list clause defaults to `$in`; any other clause defaults
to `$eq`. -/
def parseComparison (field : String) (clause : PyObj) : List IRNode :=
  match clause with
  | .dict entries => entries.filterMap fun kv =>
      if kv.1 = "$eq" then some (.comparison .eq field kv.2)
      else if kv.1 = "$in" then some (.comparison .inOp field kv.2)
      else if kv.1 = "$ne" then some (.comparison .ne field kv.2)
      else if kv.1 = "$nin" then some (.comparison .nin field kv.2)
      else if kv.1 = "$gt" then some (.comparison .gt field kv.2)
      else if kv.1 = "$gte" then some (.comparison .gte field kv.2)
      else if kv.1 = "$lt" then some (.comparison .lt field kv.2)
      else if kv.1 = "$lte" then some (.comparison .lte field kv.2)
      else none
  | .list _ => [.comparison .inOp field clause]
  | _ => [.comparison .eq field clause]

/-- The tail of `LogicalFilterClause.parse` (lines 112-118): a named operator
class wraps the collected conditions unconditionally; the top-level entry
point (`cls == LogicalFilterClause`, here `cls = none`) unwraps a single
condition and otherwise wraps in `AndOperation` — including when the
condition list is empty. -/
def finishParse (cls : Option LogKind) (conds : List IRNode) : IRNode :=
  match cls with
  | some k => .logical k conds
  | none =>
    match conds with
    | [c] => c
    | _ => .logical .andOp conds

mutual

/-- `LogicalFilterClause.parse` (lines 89-118), parametrised by the class it
is invoked on (`none` for `LogicalFilterClause` itself, `some k` for the
`NotOperation`/`AndOperation`/`OrOperation` subclasses).  A dict is treated
as a one-element list of dicts.  A non-dict non-list filter term raises in
Python when iterated: a non-empty string iterates to characters whose
`.items()` raises `AttributeError` (an empty string yields no conditions),
any other scalar raises `TypeError` at the `for` loop. -/
def parseWith (cls : Option LogKind) (ft : PyObj) : Except PyError IRNode :=
  match ft with
  | .dict es =>
      match parseConds es with
      | .error e => .error e
      | .ok conds => .ok (finishParse cls conds)
  | .list items =>
      match parseItems items with
      | .error e => .error e
      | .ok conds => .ok (finishParse cls conds)
  | .str s => if s.isEmpty then .ok (finishParse cls []) else .error .attributeError
  | _ => .error .typeError

/-- The outer loop of `parse` over a list of filter dicts; a non-dict item
raises `AttributeError` at `item.items()`. -/
def parseItems : List PyObj → Except PyError (List IRNode)
  | [] => .ok []
  | .dict es :: rest =>
      match parseConds es with
      | .error e => .error e
      | .ok hs =>
          match parseItems rest with
          | .error e => .error e
          | .ok ts => .ok (hs ++ ts)
  | _ :: _ => .error .attributeError

/-- The inner loop of `parse` over one dict's key/value pairs (lines
101-110): `$not`/`$and`/`$or` recurse into the corresponding subclass parse,
any other key is a metadata field delegated to `ComparisonOperation.parse`. -/
def parseConds : List (String × PyObj) → Except PyError (List IRNode)
  | [] => .ok []
  | (k, v) :: rest =>
      match
        (if k = "$not" then
          match parseWith (some .notOp) v with
          | .error e => .error e
          | .ok n => .ok [n]
        else if k = "$and" then
          match parseWith (some .andOp) v with
          | .error e => .error e
          | .ok n => .ok [n]
        else if k = "$or" then
          match parseWith (some .orOp) v with
          | .error e => .error e
          | .ok n => .ok [n]
        else (.ok (parseComparison k v) : Except PyError (List IRNode))) with
      | .error e => .error e
      | .ok hs =>
          match parseConds rest with
          | .error e => .error e
          | .ok ts => .ok (hs ++ ts)

end

/-- `LogicalFilterClause.parse` invoked on `LogicalFilterClause` itself: the
public entry point of the filter parser. -/
def parseFilter (ft : PyObj) : Except PyError IRNode := parseWith none ft

/-- The logical-kind half of `invert`: `AndOperation.invert` builds an
`OrOperation` (line 282), `OrOperation.invert` an `AndOperation` (line 309),
and `NotOperation.invert` an `OrOperation` (line 274). -/
def invKind : LogKind → LogKind
  | .andOp => .orOp
  | .orOp => .andOp
  | .notOp => .orOp

/-- The comparison half of `invert`: each comparison class swaps to its
complement, keeping field and value (lines 325, 352, 369, 396, 414, 432,
450, 468). -/
def invOp : CmpOp → CmpOp
  | .eq => .ne
  | .ne => .eq
  | .inOp => .nin
  | .nin => .inOp
  | .gt => .lte
  | .gte => .lt
  | .lt => .gte
  | .lte => .gt

mutual

/-- The `invert` method: logical nodes swap their kind via `invKind` and
invert every child; comparison nodes swap their operator via `invOp`. -/
def IRNode.invert : IRNode → IRNode
  | .logical k cs => .logical (invKind k) (invertList cs)
  | .comparison op f v => .comparison (invOp op) f v

/-- The list comprehension `[condition.invert() for condition in self.conditions]`. -/
def invertList : List IRNode → List IRNode
  | [] => []
  | c :: cs => c.invert :: invertList cs

end

/-- An Elasticsearch query document as built by `convert_to_elasticsearch`.
Each constructor mirrors one dict shape occurring in the source:
`{"term": {field: value}}`, `{"terms": {field: values}}`,
`{"range": {field: {op: value, ...}}}` (the inner dict is an
insertion-ordered op/value list), `{"bool": {"must": [...]}}`,
`{"bool": {"should": [...]}}`, `{"bool": {"must_not": [...]}}` and — distinct
from the list form — `{"bool": {"must_not": {...}}}` wrapping a single dict
as emitted by `NeOperation` and `NinOperation`. -/
inductive ESDoc where
  | term (field : String) (v : PyObj)
  | terms (field : String) (vs : List PyObj)
  | range (field : String) (ops : List (String × PyObj))
  | boolMust (cs : List ESDoc)
  | boolShould (cs : List ESDoc)
  | boolMustNot (cs : List ESDoc)
  | boolMustNotSingle (c : ESDoc)

/-- The test `"range" in condition` together with the reads
`list(condition.keys())[0]` / the inner dict: a condition carries a top-level
`"range"` key exactly when it is a `range` document. -/
def rangePart : ESDoc → Option (String × List (String × PyObj))
  | .range f ops => some (f, ops)
  | _ => none

/-- Python dict assignment `d[k] = v` on an insertion-ordered dict: an
existing key keeps its position and gets the new value, a new key is
appended. -/
def updAssoc (l : List (String × PyObj)) (k : String) (v : PyObj) :
    List (String × PyObj) :=
  match l with
  | [] => [(k, v)]
  | (k', v') :: rest =>
      if k' = k then (k', v) :: rest else (k', v') :: updAssoc rest k v

/-- The nested-defaultdict assignment
`range_conditions_dict[field_name][operation] = comparison_value`. -/
def rangeDictInsert (d : List (String × List (String × PyObj)))
    (f op : String) (v : PyObj) : List (String × List (String × PyObj)) :=
  match d with
  | [] => [(f, [(op, v)])]
  | (f', ops) :: rest =>
      if f' = f then (f', updAssoc ops op v) :: rest
      else (f', ops) :: rangeDictInsert rest f op v

/-- The loop of `_merge_es_range_queries` building `range_conditions_dict`
(lines 143-147).  For each range condition it reads the first field key and
that field's first operation key; `list(...)[0]` on an empty inner dict would
raise `IndexError` (never reached: every emitted range clause has exactly one
operation). -/
def buildRangeDict (acc : List (String × List (String × PyObj))) :
    List (String × List (String × PyObj)) →
    Except PyError (List (String × List (String × PyObj)))
  | [] => .ok acc
  | (f, ops) :: rest =>
      match ops with
      | [] => .error .indexError
      | (op, v) :: _ => buildRangeDict (rangeDictInsert acc f op v) rest

/-- `LogicalFilterClause._merge_es_range_queries` (lines 134-152): if any
sibling condition is a range clause, all non-range conditions are kept in
their relative order and one merged range clause per field is appended at the
end, fields in order of first appearance among the range clauses. -/
def mergeEsRangeQueries (conditions : List ESDoc) : Except PyError (List ESDoc) :=
  if (conditions.filterMap rangePart).isEmpty then .ok conditions
  else
    match buildRangeDict [] (conditions.filterMap rangePart) with
    | .error e => .error e
    | .ok d =>
        .ok (conditions.filter (fun c => (rangePart c).isNone) ++
          d.map fun fo => ESDoc.range fo.1 fo.2)

/-- `convert_to_elasticsearch` of a single comparison node (the eight
`ComparisonOperation` subclasses).  The scalar operators assert that the
comparison value is not a list, the list operators assert that it is one;
a failed `assert` raises `AssertionError`. -/
def convertESCmp (op : CmpOp) (f : String) (v : PyObj) : Except PyError ESDoc :=
  match op with
  | .eq => if pyIsInst v .listTy then .error .assertionError else .ok (.term f v)
  | .ne =>
      if pyIsInst v .listTy then .error .assertionError
      else .ok (.boolMustNotSingle (.term f v))
  | .inOp =>
      match v with
      | .list vs => .ok (.terms f vs)
      | _ => .error .assertionError
  | .nin =>
      match v with
      | .list vs => .ok (.boolMustNotSingle (.terms f vs))
      | _ => .error .assertionError
  | .gt =>
      if pyIsInst v .listTy then .error .assertionError
      else .ok (.range f [("gt", v)])
  | .gte =>
      if pyIsInst v .listTy then .error .assertionError
      else .ok (.range f [("gte", v)])
  | .lt =>
      if pyIsInst v .listTy then .error .assertionError
      else .ok (.range f [("lt", v)])
  | .lte =>
      if pyIsInst v .listTy then .error .assertionError
      else .ok (.range f [("lte", v)])

mutual

/-- `convert_to_elasticsearch`: `AndOperation` emits a `must` list,
`OrOperation` a `should` list, `NotOperation` a `must_not` list (native
negation, no inversion), each after merging sibling range clauses (lines
261-264, 284-287, 299-302). -/
def convertToES : IRNode → Except PyError ESDoc
  | .logical k cs =>
      match convertESList cs with
      | .error e => .error e
      | .ok docs =>
          match mergeEsRangeQueries docs with
          | .error e => .error e
          | .ok merged =>
              match k with
              | .andOp => .ok (.boolMust merged)
              | .orOp => .ok (.boolShould merged)
              | .notOp => .ok (.boolMustNot merged)
  | .comparison op f v => convertESCmp op f v

/-- The list comprehension
`[condition.convert_to_elasticsearch() for condition in self.conditions]`. -/
def convertESList : List IRNode → Except PyError (List ESDoc)
  | [] => .ok []
  | c :: cs =>
      match convertToES c with
      | .error e => .error e
      | .ok d =>
          match convertESList cs with
          | .error e => .error e
          | .ok ds => .ok (d :: ds)

end

mutual

/-- Size of an IR node, used as the termination measure of the Weaviate
emitter (which recurses on `invert`ed children). -/
def nsize : IRNode → Nat
  | .comparison _ _ _ => 1
  | .logical _ cs => 1 + lsize cs

/-- Size of a list of IR nodes. -/
def lsize : List IRNode → Nat
  | [] => 0
  | c :: cs => 1 + nsize c + lsize cs

end

/-- `invert` preserves node size.  Stated here, ahead of the remaining
definitions, because the Weaviate emitter below recurses on inverted children
and needs this fact for its termination measure. -/
theorem nsize_invert (n : IRNode) : nsize n.invert = nsize n :=
  IRNode.invert.induct (fun n => nsize n.invert = nsize n)
    (fun l => lsize (invertList l) = lsize l)
    (fun k cs ih => by simp [IRNode.invert, nsize, ih])
    (fun op f v => by simp [IRNode.invert, nsize])
    (by simp [invertList])
    (fun c cs ih1 ih2 => by simp [invertList, lsize, ih1, ih2])
    n

/-- A Weaviate where-filter document as built by `convert_to_weaviate`:
either a comparison leaf `{"path": [field], "operator": op, typeKey: value}`
or a combinator `{"operator": "And"|"Or", "operands": [...]}`. -/
inductive WDoc where
  | comp (path : List String) (operator : String) (typeKey : String) (value : PyObj)
  | logic (operator : String) (operands : List WDoc)

/-- `ComparisonOperation._get_weaviate_datatype` (lines 224-253) on an
explicit `value` argument: a string is tried as a date via the collaborator
`nd` (`_convert_date_to_rfc3339`; success gives `valueDate` with the
converted value, `ValueError` gives `valueString` with the original string);
then the `isinstance` chain types ints as `valueInt`, floats as
`valueNumber`, and booleans as `valueBoolean` — but since Python's `bool`
subclasses `int`, booleans already satisfy the `isinstance(value, int)` arm,
so they are typed `valueInt` and the `valueBoolean` arm is unreachable.  Any
other kind of value raises `ValueError`. -/
def getWeaviateDatatype (nd : String → Option String) (v : PyObj) :
    Except PyError (String × PyObj) :=
  match v with
  | .str s =>
      match nd s with
      | some d => .ok ("valueDate", .str d)
      | none => .ok ("valueString", .str s)
  | _ =>
      if pyIsInst v .intTy then .ok ("valueInt", v)
      else if pyIsInst v .floatTy then .ok ("valueNumber", v)
      else if pyIsInst v .boolTy then .ok ("valueBoolean", v)
      else .error .valueError

/-- `_get_weaviate_datatype` called with `value=None`: the value defaults to
`self.comparison_value` after `assert not isinstance(self.comparison_value,
list)` (line 232). -/
def getWeaviateDatatypeSelf (nd : String → Option String) (v : PyObj) :
    Except PyError (String × PyObj) :=
  if pyIsInst v .listTy then .error .assertionError
  else getWeaviateDatatype nd v

/-- The Weaviate operator names of the six scalar comparison classes (the
list classes `InOperation`/`NinOperation` expand instead of naming an
operator and never reach this table). -/
def weaviateOpName : CmpOp → String
  | .eq => "Equal"
  | .ne => "NotEqual"
  | .gt => "GreaterThan"
  | .gte => "GreaterThanEqual"
  | .lt => "LessThan"
  | .lte => "LessThanEqual"
  | .inOp => "Equal"
  | .nin => "NotEqual"

/-- The loop of `InOperation.convert_to_weaviate` /
`NinOperation.convert_to_weaviate` building one leaf per list element. -/
def weaviateOperands (nd : String → Option String) (opName f : String) :
    List PyObj → Except PyError (List WDoc)
  | [] => .ok []
  | v :: vs =>
      match getWeaviateDatatype nd v with
      | .error e => .error e
      | .ok tv =>
          match weaviateOperands nd opName f vs with
          | .error e => .error e
          | .ok ds => .ok (.comp [f] opName tv.1 tv.2 :: ds)

/-- `convert_to_weaviate` of a single comparison node (the eight
`ComparisonOperation` subclasses, lines 321-323, 338-350, 365-367, 382-394,
409-412, 427-430, 445-448, 463-466).  `EqOperation`/`NeOperation` emit one
leaf; the range classes additionally assert the converted value is not a
list; `InOperation`/`NinOperation` assert a list value and expand into an
`Or` of `Equal` leaves / an `And` of `NotEqual` leaves. -/
def convertWCmp (nd : String → Option String) (op : CmpOp) (f : String)
    (v : PyObj) : Except PyError WDoc :=
  match op with
  | .inOp =>
      match v with
      | .list vs =>
          match weaviateOperands nd "Equal" f vs with
          | .error e => .error e
          | .ok ops => .ok (.logic "Or" ops)
      | _ => .error .assertionError
  | .nin =>
      match v with
      | .list vs =>
          match weaviateOperands nd "NotEqual" f vs with
          | .error e => .error e
          | .ok ops => .ok (.logic "And" ops)
      | _ => .error .assertionError
  | .eq =>
      match getWeaviateDatatypeSelf nd v with
      | .error e => .error e
      | .ok tv => .ok (.comp [f] (weaviateOpName .eq) tv.1 tv.2)
  | .ne =>
      match getWeaviateDatatypeSelf nd v with
      | .error e => .error e
      | .ok tv => .ok (.comp [f] (weaviateOpName .ne) tv.1 tv.2)
  | .gt =>
      match getWeaviateDatatypeSelf nd v with
      | .error e => .error e
      | .ok tv =>
          if pyIsInst tv.2 .listTy then .error .assertionError
          else .ok (.comp [f] (weaviateOpName .gt) tv.1 tv.2)
  | .gte =>
      match getWeaviateDatatypeSelf nd v with
      | .error e => .error e
      | .ok tv =>
          if pyIsInst tv.2 .listTy then .error .assertionError
          else .ok (.comp [f] (weaviateOpName .gte) tv.1 tv.2)
  | .lt =>
      match getWeaviateDatatypeSelf nd v with
      | .error e => .error e
      | .ok tv =>
          if pyIsInst tv.2 .listTy then .error .assertionError
          else .ok (.comp [f] (weaviateOpName .lt) tv.1 tv.2)
  | .lte =>
      match getWeaviateDatatypeSelf nd v with
      | .error e => .error e
      | .ok tv =>
          if pyIsInst tv.2 .listTy then .error .assertionError
          else .ok (.comp [f] (weaviateOpName .lte) tv.1 tv.2)

mutual

/-- `convert_to_weaviate`: `AndOperation`/`OrOperation` wrap their converted
children in an `And`/`Or` combinator unconditionally (lines 289-291,
304-306).  `NotOperation` (lines 266-271) converts the inversion of each
child; more than one result is wrapped in an `"And"` combinator, otherwise
`conditions[0]` is returned (raising `IndexError` on an empty list). -/
def convertToWeaviate (nd : String → Option String) : IRNode → Except PyError WDoc
  | .logical .notOp cs =>
      match convertWInvList nd cs with
      | .error e => .error e
      | .ok conditions =>
          if 1 < conditions.length then .ok (.logic "And" conditions)
          else
            match conditions with
            | [] => .error .indexError
            | c :: _ => .ok c
  | .logical .andOp cs =>
      match convertWList nd cs with
      | .error e => .error e
      | .ok operands => .ok (.logic "And" operands)
  | .logical .orOp cs =>
      match convertWList nd cs with
      | .error e => .error e
      | .ok operands => .ok (.logic "Or" operands)
  | .comparison op f v => convertWCmp nd op f v
termination_by n => nsize n
decreasing_by
  all_goals simp [nsize, lsize]

/-- The list comprehension
`[condition.convert_to_weaviate() for condition in self.conditions]`. -/
def convertWList (nd : String → Option String) : List IRNode → Except PyError (List WDoc)
  | [] => .ok []
  | c :: cs =>
      match convertToWeaviate nd c with
      | .error e => .error e
      | .ok d =>
          match convertWList nd cs with
          | .error e => .error e
          | .ok ds => .ok (d :: ds)
termination_by l => lsize l
decreasing_by
  all_goals simp [nsize, lsize]
  all_goals omega

/-- The list comprehension
`[condition.invert().convert_to_weaviate() for condition in self.conditions]`
of `NotOperation.convert_to_weaviate`. -/
def convertWInvList (nd : String → Option String) : List IRNode → Except PyError (List WDoc)
  | [] => .ok []
  | c :: cs =>
      match convertToWeaviate nd c.invert with
      | .error e => .error e
      | .ok d =>
          match convertWInvList nd cs with
          | .error e => .error e
          | .ok ds => .ok (d :: ds)
termination_by l => lsize l
decreasing_by
  all_goals simp [nsize, lsize, nsize_invert]
  all_goals omega

end

mutual

/-- An IR tree with no `NotOperation` node. -/
def notFree : IRNode → Bool
  | .comparison _ _ _ => true
  | .logical .notOp _ => false
  | .logical _ cs => notFreeList cs

/-- `notFree` on all elements of a list. -/
def notFreeList : List IRNode → Bool
  | [] => true
  | c :: cs => notFree c && notFreeList cs

end

mutual

/-- Every `logical` node of the tree has at least one child. -/
def allLogicalNonempty : IRNode → Bool
  | .comparison _ _ _ => true
  | .logical _ cs => !cs.isEmpty && allLogicalNonemptyList cs

/-- `allLogicalNonempty` on all elements of a list. -/
def allLogicalNonemptyList : List IRNode → Bool
  | [] => true
  | c :: cs => allLogicalNonempty c && allLogicalNonemptyList cs

end

/-- Sort key of a comparison operator. -/
def opKey : CmpOp → String
  | .eq => "eq"
  | .ne => "ne"
  | .inOp => "in"
  | .nin => "nin"
  | .gt => "gt"
  | .gte => "gte"
  | .lt => "lt"
  | .lte => "lte"

/-- Sort key of a logical kind. -/
def kindKey : LogKind → String
  | .andOp => "and"
  | .orOp => "or"
  | .notOp => "not"

mutual

/-- A printable key of a Python value, used only to order siblings when
normalizing child order. -/
def pyKey : PyObj → String
  | .str s => "s:" ++ s
  | .int n => "i:" ++ toString n
  | .float q => "f:" ++ toString q
  | .bool b => "b:" ++ toString b
  | .list items => "l:[" ++ pyKeyList items ++ "]"
  | .dict es => "d:[" ++ pyKeyEntries es ++ "]"

/-- Keys of the elements of a Python list. -/
def pyKeyList : List PyObj → String
  | [] => ""
  | v :: vs => pyKey v ++ "," ++ pyKeyList vs

/-- Keys of the entries of a Python dict. -/
def pyKeyEntries : List (String × PyObj) → String
  | [] => ""
  | (k, v) :: es => k ++ "=" ++ pyKey v ++ "," ++ pyKeyEntries es

end

mutual

/-- A printable key of an IR node, used only to order siblings when
normalizing child order. -/
def nodeKey : IRNode → String
  | .comparison op f v => "c:" ++ opKey op ++ ":" ++ f ++ ":" ++ pyKey v
  | .logical k cs => "g:" ++ kindKey k ++ ":[" ++ nodeKeyList cs ++ "]"

/-- Keys of a list of IR nodes. -/
def nodeKeyList : List IRNode → String
  | [] => ""
  | c :: cs => nodeKey c ++ "," ++ nodeKeyList cs

end

/-- Insert a node into a key-sorted list of nodes. -/
def insertByKey (x : IRNode) : List IRNode → List IRNode
  | [] => [x]
  | y :: ys => if nodeKey x ≤ nodeKey y then x :: y :: ys else y :: insertByKey x ys

/-- Sort a list of sibling nodes by key (insertion sort). -/
def sortByKey : List IRNode → List IRNode
  | [] => []
  | x :: xs => insertByKey x (sortByKey xs)

mutual

/-- Normalize the child order of the logical nodes of a tree (comparison
nodes are left untouched): the normalization the round-trip claim allows
before comparing trees. -/
def normalizeTree : IRNode → IRNode
  | .comparison op f v => .comparison op f v
  | .logical k cs => .logical k (sortByKey (normalizeTreeList cs))

/-- `normalizeTree` on all elements of a list. -/
def normalizeTreeList : List IRNode → List IRNode
  | [] => []
  | c :: cs => normalizeTree c :: normalizeTreeList cs

end

theorem invertList_eq_map (cs : List IRNode) : invertList cs = cs.map IRNode.invert := by
  induction cs with
  | nil => rfl
  | cons c cs ih => simp [invertList, ih]

/-- Claim C8 (confirmed): `invert` maps every IR node exactly per the
truth table: `And` becomes `Or` over inverted children, `Or` becomes `And`
over inverted children, `Not` becomes `Or` over inverted children, and each
comparison swaps its operator (`Eq`↔`Ne`, `In`↔`NotIn`, `Gt`↔`Lte`,
`Gte`↔`Lt`) keeping the same field and value. -/
theorem c8_invert_truth_table :
    (∀ cs, (IRNode.logical .andOp cs).invert = .logical .orOp (cs.map IRNode.invert)) ∧
    (∀ cs, (IRNode.logical .orOp cs).invert = .logical .andOp (cs.map IRNode.invert)) ∧
    (∀ cs, (IRNode.logical .notOp cs).invert = .logical .orOp (cs.map IRNode.invert)) ∧
    (∀ f v, (IRNode.comparison .eq f v).invert = .comparison .ne f v) ∧
    (∀ f v, (IRNode.comparison .ne f v).invert = .comparison .eq f v) ∧
    (∀ f v, (IRNode.comparison .inOp f v).invert = .comparison .nin f v) ∧
    (∀ f v, (IRNode.comparison .nin f v).invert = .comparison .inOp f v) ∧
    (∀ f v, (IRNode.comparison .gt f v).invert = .comparison .lte f v) ∧
    (∀ f v, (IRNode.comparison .gte f v).invert = .comparison .lt f v) ∧
    (∀ f v, (IRNode.comparison .lt f v).invert = .comparison .gte f v) ∧
    (∀ f v, (IRNode.comparison .lte f v).invert = .comparison .gt f v) := by
  refine ⟨?_, ?_, ?_, ?_, ?_, ?_, ?_, ?_, ?_, ?_, ?_⟩ <;>
    intros <;> simp [IRNode.invert, invKind, invOp, invertList_eq_map]

/-- Claim C4 (code_bug evidence): Weaviate value typing sends integers to
`valueInt` and floats to `valueNumber` and rejects lists and dicts with
`ValueError` as claimed, but a boolean is typed `valueInt`, not
`valueBoolean`: Python's `bool` subclasses `int`, so `isinstance(value, int)`
already catches it and the `valueBoolean` branch is dead code. -/
theorem c4_bool_typed_valueInt :
    (∀ nd b, getWeaviateDatatype nd (.bool b) = .ok ("valueInt", .bool b)) ∧
    (∀ nd n, getWeaviateDatatype nd (.int n) = .ok ("valueInt", .int n)) ∧
    (∀ nd q, getWeaviateDatatype nd (.float q) = .ok ("valueNumber", .float q)) ∧
    (∀ nd vs, getWeaviateDatatype nd (.list vs) = .error .valueError) ∧
    (∀ nd es, getWeaviateDatatype nd (.dict es) = .error .valueError) ∧
    ("valueInt" : String) ≠ "valueBoolean" :=
  ⟨fun _ _ => rfl, fun _ _ => rfl, fun _ _ => rfl, fun _ _ => rfl, fun _ _ => rfl,
    by decide⟩

/-- Claim C5 (counterexample): constructing an `In` comparison with a scalar
value, or an `Eq` comparison with a list value, does NOT raise at
construction time — `ComparisonOperation.__init__` stores the operands
without any validation and succeeds. -/
theorem c5_construction_does_not_raise :
    comparisonInit .inOp "f" (.int 1) = .ok (.comparison .inOp "f" (.int 1)) ∧
    comparisonInit .eq "f" (.list [.int 1]) = .ok (.comparison .eq "f" (.list [.int 1])) :=
  ⟨rfl, rfl⟩

/-- Claim C5 (amended): the scalar/list arity violation is a deferred
failure: construction succeeds, and the violation surfaces only at emission
time, where the `assert` statements of the comparison emitters raise
`AssertionError` for an `In` with a scalar and for an `Eq` with a list, on
both the Elasticsearch and the Weaviate path. -/
theorem c5_arity_violation_deferred_to_emission :
    comparisonInit .inOp "f" (.int 1) = .ok (.comparison .inOp "f" (.int 1)) ∧
    comparisonInit .eq "f" (.list [.int 1]) = .ok (.comparison .eq "f" (.list [.int 1])) ∧
    convertESCmp .inOp "f" (.int 1) = .error .assertionError ∧
    convertESCmp .eq "f" (.list [.int 1]) = .error .assertionError ∧
    convertWCmp (fun _ => none) .inOp "f" (.int 1) = .error .assertionError ∧
    convertWCmp (fun _ => none) .eq "f" (.list [.int 1]) = .error .assertionError :=
  ⟨rfl, rfl, rfl, rfl, rfl, rfl⟩

/-- Claim C6 (counterexample): parsing `{"$and": {}}` is not a parse error
and produces a logical node with zero children, so not every logical node
returned by `parse` has at least one child. -/
theorem c6_and_empty_parses_to_childless_node :
    parseFilter (.dict [("$and", .dict [])]) = .ok (.logical .andOp []) ∧
    allLogicalNonempty (.logical .andOp []) = false :=
  ⟨rfl, rfl⟩

/-- Claim C6 (amended): `parse` does not enforce a minimum child count: a
logical operator key whose operand yields no conditions parses successfully
to a childless logical node (`{"$and": {}}` to `And []`, `{"$or": {}}` to
`Or []`, `{"$not": {}}` to `Not []`), and an empty top-level mapping parses
to a childless `And` as well. -/
theorem c6_empty_operand_yields_childless_logical :
    parseFilter (.dict [("$and", .dict [])]) = .ok (.logical .andOp []) ∧
    parseFilter (.dict [("$or", .dict [])]) = .ok (.logical .orOp []) ∧
    parseFilter (.dict [("$not", .dict [])]) = .ok (.logical .notOp []) ∧
    parseFilter (.dict []) = .ok (.logical .andOp []) :=
  ⟨rfl, rfl, rfl, rfl⟩

/-- Claim C9 (confirmed): the filter
`{"date": {"$gte": "2015-01-01", "$lt": "2021-01-01"}}` parses to an
implicit `And` of two range comparisons on `date`, and its Elasticsearch
emission carries exactly one `range` clause holding both the `gte` and the
`lt` operator/value pairs. -/
theorem c9_range_merge_single_clause :
    parseFilter (.dict [("date", .dict [("$gte", .str "2015-01-01"),
        ("$lt", .str "2021-01-01")])])
      = .ok (.logical .andOp [.comparison .gte "date" (.str "2015-01-01"),
          .comparison .lt "date" (.str "2021-01-01")]) ∧
    convertToES (.logical .andOp [.comparison .gte "date" (.str "2015-01-01"),
        .comparison .lt "date" (.str "2021-01-01")])
      = .ok (.boolMust [.range "date"
          [("gte", .str "2015-01-01"), ("lt", .str "2021-01-01")]]) ∧
    [ESDoc.range "date" [("gte", .str "2015-01-01"), ("lt", .str "2021-01-01")]].length = 1 :=
  ⟨rfl, rfl, rfl⟩

/-- Claim C1 (code_bug evidence): the Weaviate emission of a `Not` node with
two sibling conditions wraps the inverted children in an `"And"` combinator,
not the `"Or"` the NOT-of-implicit-AND elimination prescribes; the single
child case (a NOT wrapping an `$and`) does produce the `"Or"` document, so
the divergence is exactly the multi-child path of
`NotOperation.convert_to_weaviate`. -/
theorem c1_not_emission_uses_and :
    convertToWeaviate (fun _ => none)
      (.logical .notOp [.comparison .eq "a" (.int 1), .comparison .eq "b" (.int 2)])
      = .ok (.logic "And" [.comp ["a"] "NotEqual" "valueInt" (.int 1),
          .comp ["b"] "NotEqual" "valueInt" (.int 2)]) ∧
    convertToWeaviate (fun _ => none)
      (.logical .notOp [.logical .andOp
        [.comparison .eq "a" (.int 1), .comparison .eq "b" (.int 2)]])
      = .ok (.logic "Or" [.comp ["a"] "NotEqual" "valueInt" (.int 1),
          .comp ["b"] "NotEqual" "valueInt" (.int 2)]) ∧
    ("And" : String) ≠ "Or" := by
  refine ⟨?_, ?_, by decide⟩ <;>
    simp [convertToWeaviate, convertWInvList, convertWList, convertWCmp,
      IRNode.invert, invOp, invKind, invertList, getWeaviateDatatypeSelf,
      getWeaviateDatatype, pyIsInst, weaviateOpName]

/-- Claim C2 (counterexample): double inversion is not the identity on trees
containing a `Not` node, even after normalizing the child order of logical
nodes: for `T = Not [Eq "a" 1]`, `invert (invert T)` is the And-node
`And [Eq "a" 1]`, which no reordering of children can make equal to `T`. -/
theorem c2_double_invert_fails_on_not :
    (IRNode.logical .notOp [.comparison .eq "a" (.int 1)]).invert.invert
      = .logical .andOp [.comparison .eq "a" (.int 1)] ∧
    normalizeTree ((IRNode.logical .notOp [.comparison .eq "a" (.int 1)]).invert.invert)
      ≠ normalizeTree (.logical .notOp [.comparison .eq "a" (.int 1)]) := by
  refine ⟨rfl, fun h => ?_⟩
  injection h with h1 h2
  cases h1

/-- Claim C2 (amended): on NOT-free IR trees double inversion is the
identity — exactly, with no child reordering needed, since `invert` maps the
child list elementwise and preserves its order.  (Trees containing a `Not`
node are excluded: `invert` sends `Not` to `Or`, so `invert (invert (Not cs))`
is an `And` node, not a `Not` node.) -/
theorem c2_double_invert_identity_on_not_free (n : IRNode)
    (h : notFree n = true) : n.invert.invert = n :=
  IRNode.invert.induct
    (fun n => notFree n = true → n.invert.invert = n)
    (fun l => notFreeList l = true → invertList (invertList l) = l)
    (fun k cs ih => by
      cases k with
      | andOp =>
          intro hn
          simp only [notFree] at hn
          simp [IRNode.invert, invKind, ih hn]
      | orOp =>
          intro hn
          simp only [notFree] at hn
          simp [IRNode.invert, invKind, ih hn]
      | notOp => intro hn; simp [notFree] at hn)
    (fun op f v => by cases op <;> simp [IRNode.invert, invOp])
    (fun _ => rfl)
    (fun c cs ih1 ih2 => by
      intro hl
      simp only [notFreeList, Bool.and_eq_true] at hl
      simp [invertList, ih1 hl.1, ih2 hl.2])
    n h

/-- Claim C2 (witness): the amended round-trip theorem applied to a concrete
NOT-free tree. -/
theorem c2_round_trip_witness :
    (IRNode.logical .andOp [.comparison .eq "a" (.int 1),
        .logical .orOp [.comparison .gt "b" (.int 2),
          .comparison .inOp "c" (.list [.str "x"])]]).invert.invert
      = .logical .andOp [.comparison .eq "a" (.int 1),
          .logical .orOp [.comparison .gt "b" (.int 2),
            .comparison .inOp "c" (.list [.str "x"])]] :=
  c2_double_invert_identity_on_not_free _ rfl

/-- Claim C10 (confirmed): at the unguarded top level of `parse`, a mapping
whose keys produce two or more conditions parses to an `And` node over those
conditions, while a mapping producing exactly one condition parses to that
single condition unwrapped. -/
theorem c10_top_level_collapse (es : List (String × PyObj)) (conds : List IRNode)
    (h : parseConds es = .ok conds) :
    (2 ≤ conds.length → parseFilter (.dict es) = .ok (.logical .andOp conds)) ∧
    (∀ c, conds = [c] → parseFilter (.dict es) = .ok c) := by
  have base : parseFilter (.dict es) = .ok (finishParse none conds) := by
    simp [parseFilter, parseWith, h]
  constructor
  · intro h2
    rw [base]
    cases conds with
    | nil => simp at h2
    | cons a t =>
        cases t with
        | nil => simp at h2
        | cons b t2 => rfl
  · intro c hc
    subst hc
    rw [base]
    rfl

/-- Claim C10 (witness): a two-field mapping parses to an implicit `And`, a
one-field mapping parses to the bare comparison. -/
theorem c10_top_level_collapse_witness :
    parseFilter (.dict [("a", .int 1), ("b", .int 2)])
      = .ok (.logical .andOp [.comparison .eq "a" (.int 1),
          .comparison .eq "b" (.int 2)]) ∧
    parseFilter (.dict [("a", .int 1)]) = .ok (.comparison .eq "a" (.int 1)) :=
  ⟨(c10_top_level_collapse [("a", .int 1), ("b", .int 2)]
      [.comparison .eq "a" (.int 1), .comparison .eq "b" (.int 2)] rfl).1 (by simp),
   (c10_top_level_collapse [("a", .int 1)] [.comparison .eq "a" (.int 1)] rfl).2 _ rfl⟩

/-- Claim C7 (counterexample): singleton `And`/`Or` nodes DO appear in
emitted Weaviate documents: an `AndOperation` with exactly one condition
emits an `"And"` combinator with a single operand (and an `InOperation` over
a one-element list emits a singleton `"Or"`), because only
`NotOperation.convert_to_weaviate` unwraps singletons. -/
theorem c7_singleton_and_survives :
    convertToWeaviate (fun _ => none) (.logical .andOp [.comparison .eq "a" (.int 1)])
      = .ok (.logic "And" [.comp ["a"] "Equal" "valueInt" (.int 1)]) ∧
    convertToWeaviate (fun _ => none) (.comparison .inOp "g" (.list [.str "x"]))
      = .ok (.logic "Or" [.comp ["g"] "Equal" "valueString" (.str "x")]) ∧
    [WDoc.comp ["a"] "Equal" "valueInt" (.int 1)].length = 1 := by
  refine ⟨?_, ?_, rfl⟩ <;>
    simp [convertToWeaviate, convertWList, convertWCmp, weaviateOperands,
      getWeaviateDatatypeSelf, getWeaviateDatatype, pyIsInst, weaviateOpName]

/-- Claim C7 (amended): only the `Not` emitter unwraps: a `Not` node with
exactly one child emits exactly the emission of that child's inversion,
while an `And` node keeps its `"And"` wrapper even around a single operand;
so singleton combinators can appear in the final document whenever they do
not come from a `Not`. -/
theorem c7_only_not_unwraps_singletons (nd : String → Option String) (c : IRNode) :
    convertToWeaviate nd (.logical .notOp [c]) = convertToWeaviate nd c.invert ∧
    ∀ d, convertToWeaviate nd c = .ok d →
      convertToWeaviate nd (.logical .andOp [c]) = .ok (.logic "And" [d]) := by
  constructor
  · cases h : convertToWeaviate nd c.invert with
    | error e => simp [convertToWeaviate, convertWInvList, h]
    | ok d => simp [convertToWeaviate, convertWInvList, h]
  · intro d h
    simp [convertToWeaviate, convertWList, h]

theorem rangeDictInsert_ne_nil (d : List (String × List (String × PyObj)))
    (f op : String) (v : PyObj) : rangeDictInsert d f op v ≠ [] := by
  cases d with
  | nil => simp [rangeDictInsert]
  | cons e rest =>
      obtain ⟨g, ops⟩ := e
      simp only [rangeDictInsert]
      split <;> simp

theorem buildRangeDict_ne_nil (l : List (String × List (String × PyObj)))
    (acc d : List (String × List (String × PyObj)))
    (hacc : acc ≠ []) (h : buildRangeDict acc l = .ok d) : d ≠ [] := by
  induction l generalizing acc with
  | nil =>
      simp only [buildRangeDict] at h
      injection h with h1
      exact h1 ▸ hacc
  | cons r rest ih =>
      obtain ⟨f, ops⟩ := r
      cases ops with
      | nil => simp [buildRangeDict] at h
      | cons p t =>
          obtain ⟨op, v⟩ := p
          simp only [buildRangeDict] at h
          exact ih (rangeDictInsert acc f op v) (rangeDictInsert_ne_nil acc f op v) h

/-- Claim C3 (counterexample): the merged range clause does not sit at the
position of the last original range clause: for the `And` of a range
comparison (position 0) followed by a non-range comparison, the emitted
`must` list has the non-range `term` clause at position 0 and the merged
`range` clause at position 1, while the last original range clause sat at
position 0. -/
theorem c3_merged_range_not_at_last_range_position :
    convertToES (.logical .andOp
      [.comparison .gt "date" (.int 1), .comparison .eq "type" (.str "x")])
      = .ok (.boolMust [.term "type" (.str "x"), .range "date" [("gt", .int 1)]]) ∧
    (rangePart (ESDoc.term "type" (.str "x"))).isNone = true ∧
    (rangePart (ESDoc.range "date" [("gt", .int 1)])).isSome = true :=
  ⟨rfl, rfl, rfl⟩

/-- Claim C3 (amended): in the range-merge of a boolean clause list that
contains at least one range clause, the non-range clauses keep their
relative order at the front of the result and the merged range clauses (a
nonempty list of range clauses) are appended at the end — not at the
position of the last original range clause. -/
theorem c3_merged_ranges_appended (conds res : List ESDoc)
    (hr : mergeEsRangeQueries conds = .ok res)
    (hx : conds.any (fun c => (rangePart c).isSome) = true) :
    ∃ merged, res = conds.filter (fun c => (rangePart c).isNone) ++ merged ∧
      merged.all (fun c => (rangePart c).isSome) = true ∧ merged ≠ [] := by
  have hne : conds.filterMap rangePart ≠ [] := by
    rw [List.any_eq_true] at hx
    obtain ⟨c, hc, hsome⟩ := hx
    intro h0
    rw [List.filterMap_eq_nil_iff] at h0
    rw [h0 c hc] at hsome
    simp at hsome
  have hemp : (conds.filterMap rangePart).isEmpty = false := by
    cases h : conds.filterMap rangePart with
    | nil => exact absurd h hne
    | cons a t => rfl
  unfold mergeEsRangeQueries at hr
  rw [hemp] at hr
  simp only [Bool.false_eq_true, if_false] at hr
  cases hb : buildRangeDict [] (conds.filterMap rangePart) with
  | error e => rw [hb] at hr; cases hr
  | ok d =>
      rw [hb] at hr
      injection hr with hr1
      refine ⟨d.map fun fo => ESDoc.range fo.1 fo.2, hr1.symm, ?_, ?_⟩
      · rw [List.all_eq_true]
        intro c hc
        rw [List.mem_map] at hc
        obtain ⟨fo, _, rfl⟩ := hc
        rfl
      · have hd : d ≠ [] := by
          cases hcc : conds.filterMap rangePart with
          | nil => exact absurd hcc hne
          | cons r rs =>
              rw [hcc] at hb
              obtain ⟨f, ops⟩ := r
              cases ops with
              | nil => simp [buildRangeDict] at hb
              | cons p t =>
                  obtain ⟨op, v⟩ := p
                  simp only [buildRangeDict] at hb
                  exact buildRangeDict_ne_nil rs _ d
                    (rangeDictInsert_ne_nil [] f op v) hb
        simp [hd]

/-- Claim C3 (witness): the amended merge-position theorem applied to the
concrete sibling list `[range gt date 1, term type x]`. -/
theorem c3_merged_ranges_appended_witness :
    ∃ merged,
      [ESDoc.term "type" (.str "x"), ESDoc.range "date" [("gt", .int 1)]]
        = [ESDoc.range "date" [("gt", .int 1)],
            ESDoc.term "type" (.str "x")].filter (fun c => (rangePart c).isNone)
          ++ merged ∧
      merged.all (fun c => (rangePart c).isSome) = true ∧ merged ≠ [] :=
  c3_merged_ranges_appended
    [.range "date" [("gt", .int 1)], .term "type" (.str "x")]
    [.term "type" (.str "x"), .range "date" [("gt", .int 1)]] rfl rfl
